import Mathlib

/-!
# Verification of the USB-Installer-Node supervision core

A shallow embedding, in Lean 4, of the supervision/lifecycle engine of the
`USB-Installer-Node` repository, together with theorems settling the frozen
claims about it.

The embedding covers:

* `src/src/monitoring.rs` — the `Monitor` supervisor: per-tick health-check
  scan (`Monitor::check_all_services`), alert creation, the metrics snapshot
  loop (`Monitor::start_metrics_collector`), the Prometheus text exposition
  (`Monitor::get_prometheus_metrics`), and alert retention
  (`Monitor::clear_resolved_alerts`).
* `src/src/network/dhcp.rs` — `DhcpClient::request_lease`, the bounded
  retry loop for DHCP lease acquisition.
* `src/src/network/tunnel.rs` — the backoff evolution of
  `TunnelManager::monitor_process` (floor 1 s, cap 60 s, multiplier 2).

Conventions of the embedding:

* Rust `u32`/`u64` counters and second-counts are modelled as `Nat`
  (no counter in the claims comes near its overflow bound, and `u32`
  overflow would panic in a checked build rather than wrap silently).
* `Duration` values are modelled by their whole-second count (`Nat`);
  every duration manipulated by the embedded code is built with
  `Duration::from_secs`.
* A `health_check()` outcome `Result<()>` is modelled as `Option String`:
  `none` is `Ok(())`, `some e` is `Err` with display text `e`.
* `Instant`-valued fields (`last_check`, `acquired_at`) carry no claim
  content and are omitted from the records.
* The registry `HashMap`s are modelled by lists in iteration order: the
  service map as a `List (String × Option String)` (name paired with that
  tick's health-check outcome) and the health map as a `List ServiceHealth`
  looked up by name.  Keys of a `HashMap` are unique, so well-formed states
  have pairwise distinct names.
-/

namespace USBNode

/-- The monitoring configuration fields consumed by `Monitor` in
`src/src/monitoring.rs` (`config.enabled`, `config.check_interval`,
`config.max_failures`, `config.auto_restart`).  `check_interval` is in
seconds. -/
structure MonitoringConfig where
  enabled : Bool
  checkInterval : Nat
  maxFailures : Nat
  autoRestart : Bool
  deriving DecidableEq, Repr

/-- `AlertSeverity` from `src/src/monitoring.rs` lines 20–26. -/
inductive AlertSeverity where
  | info
  | warning
  | error
  | critical
  deriving DecidableEq, Repr

/-- `Alert` from `src/src/monitoring.rs` lines 10–18.  The random `id`
(uuid) and the wall-clock `timestamp` are omitted: no claim constrains
them. -/
structure Alert where
  severity : AlertSeverity
  module : String
  message : String
  resolved : Bool
  deriving DecidableEq, Repr

/-- `ServiceHealth` from `src/src/monitoring.rs` lines 37–45, minus the
`Instant`-valued `last_check`.  `error_count` is the consecutive-failure
counter. -/
structure ServiceHealth where
  name : String
  healthy : Bool
  uptime : Nat
  errorCount : Nat
  restartCount : Nat
  deriving DecidableEq, Repr

/-- The health record inserted by `Monitor::register_service`
(`src/src/monitoring.rs` lines 82–89): healthy, zero counters. -/
def initHealth (name : String) : ServiceHealth :=
  { name := name, healthy := true, uptime := 0, errorCount := 0, restartCount := 0 }

/-- Lookup of a service's health record by name, modelling
`status.get_mut(name)` on the health `HashMap`. -/
def lookupHealth (st : List ServiceHealth) (name : String) : Option ServiceHealth :=
  st.find? (fun h => h.name = name)

/-- In-place replacement of the record named `name`, modelling mutation
through `status.get_mut(name)`. -/
def updateHealth (st : List ServiceHealth) (name : String) (v : ServiceHealth) :
    List ServiceHealth :=
  st.map (fun h => if h.name = name then v else h)

/-- Result of evaluating one service inside the scan: the updated health
record, the alerts sent on the channel (in order), and whether the
threshold-triggered restart branch fired. -/
structure StepResult where
  health : ServiceHealth
  alerts : List Alert
  restart : Bool
  deriving DecidableEq, Repr

/-- The per-service body of `Monitor::check_all_services`
(`src/src/monitoring.rs` lines 161–224): the `match result` on the
health-check outcome.

* `Ok`: if the record was unhealthy, mark healthy, zero `error_count`, and
  send an Info "recovered" alert created with `resolved: true`; in both
  cases add `check_interval` to `uptime` (line 181).
* `Err e`: mark unhealthy, increment `error_count`; severity is `Critical`
  when the incremented count reaches `max_failures`, else `Warning`; send
  the failure alert created with `resolved: false`.  If the incremented
  count reaches `max_failures` and `auto_restart` is set, zero
  `error_count`, bump `restart_count`, and take the restart branch
  (lines 204–222). -/
def checkService (cfg : MonitoringConfig) (name : String) (result : Option String)
    (health : ServiceHealth) : StepResult :=
  match result with
  | none =>
      if !health.healthy then
        let h1 : ServiceHealth := { health with healthy := true, errorCount := 0 }
        let alert : Alert :=
          { severity := AlertSeverity.info, module := name,
            message := "Service " ++ name ++ " recovered", resolved := true }
        { health := { h1 with uptime := h1.uptime + cfg.checkInterval },
          alerts := [alert], restart := false }
      else
        { health := { health with uptime := health.uptime + cfg.checkInterval },
          alerts := [], restart := false }
  | some e =>
      let h1 : ServiceHealth :=
        { health with healthy := false, errorCount := health.errorCount + 1 }
      let severity :=
        if h1.errorCount ≥ cfg.maxFailures then AlertSeverity.critical
        else AlertSeverity.warning
      let alert : Alert :=
        { severity := severity, module := name,
          message := "Health check failed: " ++ e, resolved := false }
      if h1.errorCount ≥ cfg.maxFailures && cfg.autoRestart then
        { health := { h1 with errorCount := 0, restartCount := h1.restartCount + 1 },
          alerts := [alert], restart := true }
      else
        { health := h1, alerts := [alert], restart := false }

/-- Result of one tick of the scan loop: the health map after the tick, the
alerts sent in order, the service restarted during the tick (the loop
`return`s right after executing at most one restart), and the names whose
`health_check()` was actually invoked, in iteration order. -/
structure TickResult where
  status : List ServiceHealth
  alerts : List Alert
  restarted : Option String
  checked : List String
  deriving DecidableEq, Repr

/-- `Monitor::check_all_services` (`src/src/monitoring.rs` lines 147–227).

The loop iterates the service map in order; for each service it invokes
`health_check()` and, when a health record exists under that name, runs the
per-service body.  When the body takes the restart branch the original code
drops its locks, executes `restart()` on that one service, and `return`s —
so the scan stops there and services later in iteration order are neither
checked nor updated for that tick. -/
def checkAllServices (cfg : MonitoringConfig) (services : List (String × Option String))
    (st : List ServiceHealth) : TickResult :=
  match services with
  | [] => { status := st, alerts := [], restarted := none, checked := [] }
  | (name, result) :: rest =>
      match lookupHealth st name with
      | none =>
          let r := checkAllServices cfg rest st
          { r with checked := name :: r.checked }
      | some h =>
          let s := checkService cfg name result h
          let st1 := updateHealth st name s.health
          if s.restart then
            { status := st1, alerts := s.alerts, restarted := some name,
              checked := [name] }
          else
            let r := checkAllServices cfg rest st1
            { status := r.status, alerts := s.alerts ++ r.alerts,
              restarted := r.restarted, checked := name :: r.checked }

/-- Iterated ticks of the supervisor loop: each element of `ticks` gives
the health-check outcome per registered service for that tick (the service
map itself does not change between ticks).  Returns the final health map
and the per-tick results, in order. -/
def runTicks (cfg : MonitoringConfig) (ticks : List (List (String × Option String)))
    (st : List ServiceHealth) : List ServiceHealth × List TickResult :=
  match ticks with
  | [] => (st, [])
  | svcs :: rest =>
      let r := checkAllServices cfg svcs st
      let r2 := runTicks cfg rest r.status
      (r2.1, r :: r2.2)

/-- The per-tick service list of the C2 scenario: the registered services
in iteration order `pre ++ [t] ++ post`, every service other than the
target `t` passing its check, `t` failing with error text `e`. -/
def scenarioTick (pre post : List String) (t e : String) :
    List (String × Option String) :=
  pre.map (fun n => (n, none)) ++ (t, some e) :: post.map (fun n => (n, none))

/-- The evolution of one service's own health record across the outcomes
that the scan actually processed for it, starting from registration
(`initHealth`).  Processing steps of other services never touch this
record (they update the map only under other names), so the record after a
sequence of processed outcomes is this fold. -/
def runOutcomes (cfg : MonitoringConfig) (name : String) (os : List (Option String)) :
    ServiceHealth :=
  os.foldl (fun h o => (checkService cfg name o h).health) (initHealth name)

/-- `Monitor::clear_resolved_alerts` (`src/src/monitoring.rs` lines
341–343): `retain(|a| !a.resolved)` on the alert log. -/
def clearResolvedAlerts (alerts : List Alert) : List Alert :=
  alerts.filter (fun a => !a.resolved)

/-! ## Tunnel reconnect backoff (`src/src/network/tunnel.rs`) -/

/-- One backoff update of `TunnelManager::monitor_process`
(`src/src/network/tunnel.rs` lines 246–299), in seconds: a successful
respawn resets the backoff to 1 s (line 284); a failed respawn doubles it,
capped at `MAX_BACKOFF = 60` s (lines 289–292). -/
def tunnelNextBackoff (b : Nat) (restartOk : Bool) : Nat :=
  if restartOk then 1 else min (b * 2) 60

/-- The backoff in force after the given sequence of respawn outcomes
(`true` = respawn succeeded), starting from the initial
`backoff = Duration::from_secs(1)` (line 247).  Since the monitor loop
sleeps the current backoff immediately before each respawn attempt
(line 276), `tunnelBackoffAfter os` is exactly the delay slept before the
attempt that follows the outcomes `os`. -/
def tunnelBackoffAfter (os : List Bool) : Nat :=
  os.foldl tunnelNextBackoff 1

/-! ## DHCP lease acquisition (`src/src/network/dhcp.rs`) -/

/-- `DhcpState` from `src/src/network/dhcp.rs` lines 17–25. -/
inductive DhcpState where
  | down
  | requesting
  | bound
  | renewing
  | rebinding
  | error (reason : String)
  deriving DecidableEq, Repr

/-- `DhcpLease` from `src/src/network/dhcp.rs` lines 8–15.  The IPv4
addresses are modelled by their 32-bit numeric value; the `Instant`-valued
`acquired_at` is omitted. -/
structure DhcpLease where
  ip : Nat
  gateway : Option Nat
  dns : List Nat
  leaseTime : Nat
  deriving DecidableEq, Repr

/-- The retry-relevant state of `DhcpClient`
(`src/src/network/dhcp.rs` lines 27–33). -/
structure DhcpClient where
  iface : String
  currentLease : Option DhcpLease
  state : DhcpState
  retryCount : Nat
  maxRetries : Nat
  deriving DecidableEq, Repr

/-- `DhcpClient::new` with an explicit interface
(`src/src/network/dhcp.rs` lines 36–49): state `Down`, `retry_count = 0`,
`max_retries = 5`. -/
def DhcpClient.new (iface : String) : DhcpClient :=
  { iface := iface, currentLease := none, state := DhcpState.down,
    retryCount := 0, maxRetries := 5 }

/-- Result of a `request_lease` call: the client afterwards, the returned
`Result`, and the list of backoff delays slept (in seconds, in order). -/
structure DhcpOutcome where
  client : DhcpClient
  result : Except String DhcpLease
  delays : List Nat
  deriving Repr

instance : DecidableEq (Except String DhcpLease) := fun a b =>
  match a, b with
  | Except.ok x, Except.ok y =>
      if h : x = y then isTrue (by rw [h]) else isFalse (fun hc => h (by injection hc))
  | Except.error x, Except.error y =>
      if h : x = y then isTrue (by rw [h]) else isFalse (fun hc => h (by injection hc))
  | Except.ok _, Except.error _ => isFalse (fun hc => Except.noConfusion hc)
  | Except.error _, Except.ok _ => isFalse (fun hc => Except.noConfusion hc)

instance : DecidableEq DhcpOutcome := fun a b =>
  match a, b with
  | DhcpOutcome.mk c1 r1 d1, DhcpOutcome.mk c2 r2 d2 =>
      if h : c1 = c2 ∧ r1 = r2 ∧ d1 = d2 then
        isTrue (by obtain ⟨h1, h2, h3⟩ := h; rw [h1, h2, h3])
      else
        isFalse (fun hc => h (by injection hc with h1 h2 h3; exact ⟨h1, h2, h3⟩))

/-- The `while self.retry_count < self.max_retries` loop of
`DhcpClient::request_lease` (`src/src/network/dhcp.rs` lines 79–108).
`att i` is the outcome of the `i`-th `attempt_dhcp_request()` call
(`i` counts calls made by this `request_lease` invocation, starting
at 0); its error value is the display text of the attempt's error.

The structural `fuel` parameter equals `max_retries - retry_count`, so
`fuel > 0` is exactly the loop guard `retry_count < max_retries`: the loop
starts with `retry_count = 0`, increments it once per failing iteration,
and never changes `max_retries`.  The `fuel = 0` branch is the code after
the loop (lines 106–108).

* Success (lines 81–88): store the lease, state `Bound`, reset
  `retry_count` to 0, return `Ok(lease)`.
* Failure (lines 89–102): increment `retry_count`, compute
  `backoff = 2^retry_count` seconds; if `retry_count >= max_retries`,
  set state `Error("Max retries exceeded: " ++ e)` and return `Err(e)`
  without sleeping; otherwise sleep `backoff` and iterate. -/
def requestLeaseLoop (att : Nat → Except String DhcpLease) :
    Nat → DhcpClient → Nat → DhcpOutcome
  | 0, c, _ =>
      let msg := "DHCP request failed after max retries"
      { client := { c with state := DhcpState.error msg },
        result := Except.error msg, delays := [] }
  | fuel + 1, c, i =>
      match att i with
      | Except.ok lease =>
          let cb : DhcpClient :=
            { c with currentLease := some lease, state := DhcpState.bound,
                     retryCount := 0 }
          { client := cb, result := Except.ok lease, delays := [] }
      | Except.error e =>
          let c1 : DhcpClient := { c with retryCount := c.retryCount + 1 }
          let backoff := 2 ^ c1.retryCount
          if c1.retryCount ≥ c1.maxRetries then
            let ce : DhcpClient :=
              { c1 with state := DhcpState.error ("Max retries exceeded: " ++ e) }
            { client := ce, result := Except.error e, delays := [] }
          else
            let r := requestLeaseLoop att fuel c1 (i + 1)
            { r with delays := backoff :: r.delays }

/-- `DhcpClient::request_lease` (`src/src/network/dhcp.rs` lines 75–109):
set state `Requesting`, reset `retry_count` to 0, then run the retry
loop. -/
def requestLease (att : Nat → Except String DhcpLease) (c : DhcpClient) : DhcpOutcome :=
  requestLeaseLoop att c.maxRetries
    { c with state := DhcpState.requesting, retryCount := 0 } 0

/-! ## Metrics snapshot and Prometheus exposition (`src/src/monitoring.rs`) -/

/-- `Metric` from `src/src/monitoring.rs` lines 28–35, minus the
wall-clock `timestamp`.  `value` holds the decimal text that Rust's
`Display` produces for the `f64` value (for the whole-number values the
collector stores — 0.0/1.0 flags, counts, whole seconds — that text is the
plain integer numeral).  `labels` is the label map in its iteration
order. -/
structure Metric where
  name : String
  value : String
  unit : String
  labels : List (String × String)
  deriving DecidableEq, Repr

/-- One pass of the metrics-collector body
(`src/src/monitoring.rs` lines 258–295): four gauges per service record,
each labelled `service=<name>`. -/
def snapshotMetrics (status : List ServiceHealth) : List Metric :=
  status.flatMap (fun h =>
    [ { name := "service_healthy", value := if h.healthy then "1" else "0",
        unit := "boolean", labels := [("service", h.name)] },
      { name := "service_uptime", value := toString h.uptime,
        unit := "seconds", labels := [("service", h.name)] },
      { name := "service_error_count", value := toString h.errorCount,
        unit := "count", labels := [("service", h.name)] },
      { name := "service_restart_count", value := toString h.restartCount,
        unit := "count", labels := [("service", h.name)] } ])

/-- The stored metrics list after a sequence of collector passes: each pass
appends its snapshot to the list (`metrics.write().await.extend(...)`,
line 295); nothing is ever evicted. -/
def metricsAfterSnapshots (snaps : List (List ServiceHealth)) : List Metric :=
  snaps.foldl (fun acc st => acc ++ snapshotMetrics st) []

/-- `Vec::join(",")` on rendered strings, as used for the label block
(`src/src/monitoring.rs` lines 324–329). -/
def joinSep (sep : String) : List String → String
  | [] => ""
  | [x] => x
  | x :: y :: xs => x ++ sep ++ joinSep sep (y :: xs)

/-- One rendered label item `key="value"`
(`src/src/monitoring.rs` line 327). -/
def labelItem (kv : String × String) : String :=
  kv.1 ++ "=\"" ++ kv.2 ++ "\""

/-- The rendered label block body: `k1="v1",k2="v2"` in label-map
iteration order (`src/src/monitoring.rs` lines 324–329). -/
def labelString (labels : List (String × String)) : String :=
  joinSep "," (labels.map labelItem)

/-- The text `Monitor::get_prometheus_metrics` appends for one stored
metric (`src/src/monitoring.rs` lines 321–336): a `# TYPE <name> gauge`
header line for this sample, then the sample line, with the braced label
block omitted exactly when the joined label string is empty. -/
def renderMetric (m : Metric) : String :=
  let header := "# TYPE " ++ m.name ++ " gauge\n"
  let labels := labelString m.labels
  if labels = "" then
    header ++ m.name ++ " " ++ m.value ++ "\n"
  else
    header ++ m.name ++ "\x7b" ++ labels ++ "\x7d " ++ m.value ++ "\n"

/-- `Monitor::get_prometheus_metrics` (`src/src/monitoring.rs` lines
317–339): fold over the stored metrics, appending each metric's text to
the output string. -/
def renderMetrics (ms : List Metric) : String :=
  ms.foldl (fun out m => out ++ renderMetric m) ""

/-! ### A parser for the exposition text

The round-trip claim needs an explicit parse of the rendered text back
into `(name, labels, value)` triples.  The parser works on the character
list of the text: split into lines, drop `# TYPE` header lines, and read
each sample line as `name ++ "{" ++ labels ++ "} " ++ value` or
`name ++ " " ++ value`. -/

/-- Split a character list at every occurrence of `sep` (the separator is
consumed; `n` separators yield `n + 1` chunks). -/
def splitOnChar (sep : Char) : List Char → List (List Char)
  | [] => [[]]
  | c :: cs =>
      let r := splitOnChar sep cs
      if c = sep then [] :: r
      else
        match r with
        | [] => [[c]]
        | l :: ls => (c :: l) :: ls

/-- Parse one `key="value"` label item. -/
def parseLabelItem (cs : List Char) : Option (String × String) :=
  let key := cs.takeWhile (fun c => c != '=')
  match cs.dropWhile (fun c => c != '=') with
  | '=' :: '"' :: rest =>
      let v := rest.takeWhile (fun c => c != '"')
      match rest.dropWhile (fun c => c != '"') with
      | ['"'] => some (String.mk key, String.mk v)
      | _ => none
  | _ => none

/-- Parse every item of a split label block, failing if any item is
malformed. -/
def parseLabelList : List (List Char) → Option (List (String × String))
  | [] => some []
  | item :: rest =>
      match parseLabelItem item with
      | none => none
      | some kv =>
          match parseLabelList rest with
          | none => none
          | some kvs => some (kv :: kvs)

/-- Parse a comma-separated label block body. -/
def parseLabels (cs : List Char) : Option (List (String × String)) :=
  parseLabelList (splitOnChar ',' cs)

/-- Parse one line of exposition text: `none` for the empty line and for
`#`-prefixed header lines, otherwise the `(name, labels, value)` triple of
a sample line. -/
def parseSampleLine (cs : List Char) :
    Option (String × List (String × String) × String) :=
  match cs with
  | [] => none
  | c0 :: _ =>
      if c0 = '#' then none
      else
        let nm := cs.takeWhile (fun c => c != '\x7b' && c != ' ')
        match cs.dropWhile (fun c => c != '\x7b' && c != ' ') with
        | ' ' :: rest => some (String.mk nm, [], String.mk rest)
        | '\x7b' :: rest =>
            let lbl := rest.takeWhile (fun c => c != '\x7d')
            match rest.dropWhile (fun c => c != '\x7d') with
            | '\x7d' :: ' ' :: rest2 =>
                match parseLabels lbl with
                | some labels => some (String.mk nm, labels, String.mk rest2)
                | none => none
            | _ => none
        | _ => none

/-- Parse a full exposition text into the `(name, labels, value)` triples
of its sample lines, in order. -/
def parseExposition (s : String) : List (String × List (String × String) × String) :=
  (splitOnChar '\n' s.data).filterMap parseSampleLine

/-- The `(name, labels, value)` projection of a stored metric. -/
def metricTriple (m : Metric) : String × List (String × String) × String :=
  (m.name, m.labels, m.value)

/-- Well-formedness of a metric for the exposition format: the name is
nonempty and free of `#`, `{`, spaces and newlines; label keys are free of
`=`, `,`, `}` and newlines; label values are free of `"`, `,`, `}` and
newlines; the value text is free of newlines.  Every metric the collector
produces satisfies this. -/
def wfMetric (m : Metric) : Prop :=
  (m.name ≠ "" ∧ ∀ c ∈ m.name.data, c ≠ '#' ∧ c ≠ '\x7b' ∧ c ≠ ' ' ∧ c ≠ '\n') ∧
  (∀ c ∈ m.value.data, c ≠ '\n') ∧
  (∀ kv ∈ m.labels,
    (∀ c ∈ (kv : String × String).1.data, c ≠ '=' ∧ c ≠ ',' ∧ c ≠ '\x7d' ∧ c ≠ '\n') ∧
    (∀ c ∈ (kv : String × String).2.data, c ≠ '"' ∧ c ≠ ',' ∧ c ≠ '\x7d' ∧ c ≠ '\n'))

instance (m : Metric) : Decidable (wfMetric m) := by
  unfold wfMetric; infer_instance

/-- The characters of a metric's `# TYPE <name> gauge` header line
(without the trailing newline). -/
def headerChars (m : Metric) : List Char :=
  "# TYPE ".data ++ m.name.data ++ " gauge".data

/-- The characters of a metric's sample line (without the trailing
newline): `name{labels} value`, or `name value` when the rendered label
block is empty. -/
def sampleChars (m : Metric) : List Char :=
  if labelString m.labels = "" then m.name.data ++ ' ' :: m.value.data
  else m.name.data ++ '\x7b' ::
    ((labelString m.labels).data ++ '\x7d' :: ' ' :: m.value.data)

/-! ## Helper lemmas about the health-check scan -/

/-- Every alert created by the per-service body is either the Info
recovery alert, created resolved, or a Warning/Critical failure alert,
created unresolved. -/
lemma checkService_alerts (cfg : MonitoringConfig) (name : String)
    (result : Option String) (h : ServiceHealth) :
    ∀ a ∈ (checkService cfg name result h).alerts,
      (a.severity = AlertSeverity.info ∧ a.resolved = true) ∨
      ((a.severity = AlertSeverity.warning ∨ a.severity = AlertSeverity.critical) ∧
        a.resolved = false) := by
  intro a ha
  cases result with
  | none =>
      cases hh : h.healthy with
      | true => simp [checkService, hh] at ha
      | false =>
          simp [checkService, hh] at ha
          subst ha
          exact Or.inl ⟨rfl, rfl⟩
  | some e =>
      simp only [checkService] at ha
      split at ha <;> simp at ha <;> subst ha <;>
        refine Or.inr ⟨?_, rfl⟩ <;> split <;> simp

/-- Every alert emitted during a tick comes from the per-service body of
some service that was scanned, with its health record as input. -/
lemma mem_checkAllServices_alerts (cfg : MonitoringConfig)
    (services : List (String × Option String)) (st : List ServiceHealth) :
    ∀ a ∈ (checkAllServices cfg services st).alerts,
      ∃ name result stMid h, lookupHealth stMid name = some h ∧
        a ∈ (checkService cfg name result h).alerts := by
  induction services generalizing st with
  | nil => intro a ha; simp [checkAllServices] at ha
  | cons s rest ih =>
      intro a ha
      obtain ⟨name, result⟩ := s
      simp only [checkAllServices] at ha
      cases hl : lookupHealth st name with
      | none =>
          rw [hl] at ha
          exact ih st a ha
      | some h =>
          rw [hl] at ha
          simp only [] at ha
          split at ha
          · exact ⟨name, result, st, h, hl, ha⟩
          · simp at ha
            rcases ha with ha | ha
            · exact ⟨name, result, st, h, hl, ha⟩
            · exact ih _ a ha

/-- The per-service body never renames the health record. -/
lemma checkService_health_name (cfg : MonitoringConfig) (name : String)
    (o : Option String) (h : ServiceHealth) :
    (checkService cfg name o h).health.name = h.name := by
  cases o with
  | none => cases hh : h.healthy <;> simp [checkService, hh]
  | some e => simp only [checkService]; split <;> rfl

/-- A record found by name carries that name. -/
lemma lookupHealth_name (st : List ServiceHealth) (m : String) (h : ServiceHealth)
    (hf : lookupHealth st m = some h) : h.name = m := by
  have := List.find?_some hf
  simpa using this

/-- Replacing the record named `n` commutes with lookup. -/
lemma lookupHealth_updateHealth (st : List ServiceHealth) (n : String)
    (v : ServiceHealth) (hv : v.name = n) (m : String) :
    lookupHealth (updateHealth st n v) m =
      (lookupHealth st m).map (fun h => if h.name = n then v else h) := by
  unfold lookupHealth updateHealth
  rw [List.find?_map]
  congr 1
  congr 1
  funext h
  by_cases hn : h.name = n
  · simp [Function.comp, hn, hv]
  · simp [Function.comp, hn]

/-- Lookup under a different name is unchanged by an update. -/
lemma lookupHealth_updateHealth_ne (st : List ServiceHealth) (n : String)
    (v : ServiceHealth) (hv : v.name = n) (m : String) (hm : m ≠ n) :
    lookupHealth (updateHealth st n v) m = lookupHealth st m := by
  rw [lookupHealth_updateHealth st n v hv m]
  cases hf : lookupHealth st m with
  | none => rfl
  | some h =>
      have hname := lookupHealth_name st m h hf
      simp [hname, hm]

/-- Lookup under the updated name returns the new record when the old one
existed. -/
lemma lookupHealth_updateHealth_eq (st : List ServiceHealth) (n : String)
    (v h : ServiceHealth) (hv : v.name = n) (hf : lookupHealth st n = some h) :
    lookupHealth (updateHealth st n v) n = some v := by
  rw [lookupHealth_updateHealth st n v hv n, hf]
  have hname := lookupHealth_name st n h hf
  simp [hname]

/-- The restart branch of the per-service body fires exactly on a failing
check whose incremented counter reaches the threshold with auto-restart
enabled. -/
lemma checkService_restart_iff (cfg : MonitoringConfig) (name : String)
    (o : Option String) (h : ServiceHealth) :
    (checkService cfg name o h).restart = true ↔
      o ≠ none ∧ h.errorCount + 1 ≥ cfg.maxFailures ∧ cfg.autoRestart = true := by
  cases o with
  | none => cases hh : h.healthy <;> simp [checkService, hh]
  | some e =>
      simp only [checkService]
      split
      · next hc =>
          simp only [Bool.and_eq_true, decide_eq_true_eq] at hc
          simp [hc.1, hc.2]
      · next hc =>
          simp only [Bool.and_eq_true, decide_eq_true_eq, not_and] at hc
          simp only [ne_eq, reduceCtorEq, not_false_iff, true_and]
          constructor
          · intro hfalse; cases hfalse
          · rintro ⟨h1, h2⟩; exact absurd h2 (hc h1)

/-- A successful check on a healthy record only accumulates uptime. -/
lemma checkService_ok_healthy (cfg : MonitoringConfig) (name : String)
    (h : ServiceHealth) (hh : h.healthy = true) :
    checkService cfg name none h =
      { health := { h with uptime := h.uptime + cfg.checkInterval },
        alerts := [], restart := false } := by
  simp [checkService, hh]

/-- A failing check below the restart condition records the failure. -/
lemma checkService_fail_no_restart (cfg : MonitoringConfig) (name e : String)
    (h : ServiceHealth)
    (hc : ¬ (h.errorCount + 1 ≥ cfg.maxFailures ∧ cfg.autoRestart = true)) :
    (checkService cfg name (some e) h).health =
      { h with healthy := false, errorCount := h.errorCount + 1 } ∧
    (checkService cfg name (some e) h).restart = false := by
  constructor
  · simp only [checkService]
    split
    · next hsp =>
        simp only [Bool.and_eq_true, decide_eq_true_eq] at hsp
        exact absurd ⟨hsp.1, hsp.2⟩ hc
    · rfl
  · cases hr : (checkService cfg name (some e) h).restart with
    | false => rfl
    | true =>
        rw [checkService_restart_iff] at hr
        exact absurd ⟨hr.2.1, hr.2.2⟩ hc

/-- A failing check meeting the restart condition zeroes the counter and
bumps the restart count. -/
lemma checkService_fail_restart (cfg : MonitoringConfig) (name e : String)
    (h : ServiceHealth) (hc1 : h.errorCount + 1 ≥ cfg.maxFailures)
    (hc2 : cfg.autoRestart = true) :
    (checkService cfg name (some e) h).health =
      { h with healthy := false, errorCount := 0,
               restartCount := h.restartCount + 1 } ∧
    (checkService cfg name (some e) h).restart = true := by
  constructor
  · simp [checkService, hc1, hc2]
  · rw [checkService_restart_iff]
    exact ⟨by simp, hc1, hc2⟩

/-- Scan of a cons whose head does not trigger a restart. -/
lemma checkAllServices_cons_continue (cfg : MonitoringConfig) (name : String)
    (result : Option String) (rest : List (String × Option String))
    (st : List ServiceHealth) (h : ServiceHealth)
    (hl : lookupHealth st name = some h)
    (hr : (checkService cfg name result h).restart = false) :
    checkAllServices cfg ((name, result) :: rest) st =
      { status := (checkAllServices cfg rest
          (updateHealth st name (checkService cfg name result h).health)).status,
        alerts := (checkService cfg name result h).alerts ++
          (checkAllServices cfg rest
            (updateHealth st name (checkService cfg name result h).health)).alerts,
        restarted := (checkAllServices cfg rest
          (updateHealth st name (checkService cfg name result h).health)).restarted,
        checked := name :: (checkAllServices cfg rest
          (updateHealth st name (checkService cfg name result h).health)).checked } := by
  simp [checkAllServices, hl, hr]

/-- Scan of a cons whose head triggers the restart branch: the scan stops
there. -/
lemma checkAllServices_cons_restart (cfg : MonitoringConfig) (name : String)
    (result : Option String) (rest : List (String × Option String))
    (st : List ServiceHealth) (h : ServiceHealth)
    (hl : lookupHealth st name = some h)
    (hr : (checkService cfg name result h).restart = true) :
    checkAllServices cfg ((name, result) :: rest) st =
      { status := updateHealth st name (checkService cfg name result h).health,
        alerts := (checkService cfg name result h).alerts,
        restarted := some name, checked := [name] } := by
  simp [checkAllServices, hl, hr]

/-- A scan that did not restart continues through an appended suffix. -/
lemma checkAllServices_append_cont (cfg : MonitoringConfig)
    (xs ys : List (String × Option String)) (st : List ServiceHealth)
    (h : (checkAllServices cfg xs st).restarted = none) :
    checkAllServices cfg (xs ++ ys) st =
      { status := (checkAllServices cfg ys (checkAllServices cfg xs st).status).status,
        alerts := (checkAllServices cfg xs st).alerts ++
          (checkAllServices cfg ys (checkAllServices cfg xs st).status).alerts,
        restarted := (checkAllServices cfg ys
          (checkAllServices cfg xs st).status).restarted,
        checked := (checkAllServices cfg xs st).checked ++
          (checkAllServices cfg ys (checkAllServices cfg xs st).status).checked } := by
  induction xs generalizing st with
  | nil => simp [checkAllServices]
  | cons s rest ih =>
      obtain ⟨name, result⟩ := s
      cases hl : lookupHealth st name with
      | none =>
          have hre : (checkAllServices cfg rest st).restarted = none := by
            simpa [checkAllServices, hl] using h
          simp only [List.cons_append, checkAllServices, hl, List.append_eq]
          rw [ih st hre]
      | some hh =>
          cases hr : (checkService cfg name result hh).restart with
          | true =>
              rw [checkAllServices_cons_restart cfg name result rest st hh hl hr] at h
              cases h
          | false =>
              have hre : (checkAllServices cfg rest
                  (updateHealth st name (checkService cfg name result hh).health)).restarted
                    = none := by
                rw [checkAllServices_cons_continue cfg name result rest st hh hl hr] at h
                exact h
              rw [List.cons_append,
                checkAllServices_cons_continue cfg name result (rest ++ ys) st hh hl hr,
                checkAllServices_cons_continue cfg name result rest st hh hl hr,
                ih _ hre]
              simp

/-- A healthy scan through services with `none` outcomes and healthy
records: no alerts, no restart, every name checked, and every existing
record keeps its name, health flag and both counters (only uptime may
move). -/
lemma checkAllServices_healthy_chunk (cfg : MonitoringConfig) (ns : List String)
    (st : List ServiceHealth)
    (hhs : ∀ n ∈ ns, ∃ h, lookupHealth st n = some h ∧ h.healthy = true) :
    (checkAllServices cfg (ns.map (fun n => (n, none))) st).restarted = none ∧
    (checkAllServices cfg (ns.map (fun n => (n, none))) st).alerts = [] ∧
    (checkAllServices cfg (ns.map (fun n => (n, none))) st).checked = ns ∧
    ∀ m hm, lookupHealth st m = some hm →
      ∃ hm2, lookupHealth
          (checkAllServices cfg (ns.map (fun n => (n, none))) st).status m = some hm2 ∧
        hm2.name = hm.name ∧ hm2.healthy = hm.healthy ∧
        hm2.errorCount = hm.errorCount ∧ hm2.restartCount = hm.restartCount := by
  induction ns generalizing st with
  | nil =>
      refine ⟨rfl, rfl, rfl, ?_⟩
      intro m hm hf
      exact ⟨hm, hf, rfl, rfl, rfl, rfl⟩
  | cons n rest ih =>
      obtain ⟨h, hl, hhealthy⟩ := hhs n (by simp)
      have hstep := checkService_ok_healthy cfg n h hhealthy
      have hr : (checkService cfg n none h).restart = false := by rw [hstep]
      have hname : (checkService cfg n none h).health.name = h.name :=
        checkService_health_name cfg n none h
      have hnn : (checkService cfg n none h).health.name = n := by
        rw [hname]; exact lookupHealth_name st n h hl
      have halerts : (checkService cfg n none h).alerts = [] := by rw [hstep]
      have hlook : ∀ m hm, lookupHealth st m = some hm →
          ∃ hm2, lookupHealth (updateHealth st n (checkService cfg n none h).health) m
              = some hm2 ∧ hm2.name = hm.name ∧
            hm2.healthy = hm.healthy ∧ hm2.errorCount = hm.errorCount ∧
            hm2.restartCount = hm.restartCount := by
        intro m hm hf
        rw [lookupHealth_updateHealth st n _ hnn m, hf]
        by_cases hmn : hm.name = n
        · have h1 := lookupHealth_name st m hm hf
          have hmn2 : m = n := by rw [← h1]; exact hmn
          rw [hmn2] at hf
          rw [hl] at hf
          injection hf with hmh
          refine ⟨(checkService cfg n none h).health, by simp [hmn], ?_, ?_, ?_, ?_⟩ <;>
            (rw [hstep]; rw [hmh])
        · exact ⟨hm, by simp [hmn], rfl, rfl, rfl, rfl⟩
      have hhs1 : ∀ m ∈ rest,
          ∃ h2, lookupHealth (updateHealth st n (checkService cfg n none h).health) m
            = some h2 ∧ h2.healthy = true := by
        intro m hmem
        obtain ⟨h2, hf2, hh2⟩ := hhs m (by simp [hmem])
        obtain ⟨h3, hf3, _, hh3, _, _⟩ := hlook m h2 hf2
        exact ⟨h3, hf3, by rw [hh3]; exact hh2⟩
      have ihr := ih (updateHealth st n (checkService cfg n none h).health) hhs1
      rw [List.map_cons, checkAllServices_cons_continue cfg n none _ st h hl hr]
      refine ⟨ihr.1, ?_, ?_, ?_⟩
      · simp [halerts, ihr.2.1]
      · simp [ihr.2.2.1]
      · intro m hm hf
        obtain ⟨hm1, hf1, e1, e2, e3, e4⟩ := hlook m hm hf
        obtain ⟨hm2, hf2, f1, f2, f3, f4⟩ := ihr.2.2.2 m hm1 hf1
        exact ⟨hm2, hf2, f1.trans e1, f2.trans e2, f3.trans e3, f4.trans e4⟩

/-- One full tick in which every other service succeeds and the service
`t` fails below the restart condition: no restart, `t`'s failure is
recorded, and every other record stays healthy. -/
lemma tick_fail_no_restart (cfg : MonitoringConfig) (pre post : List String)
    (t e : String) (st : List ServiceHealth) (h : ServiceHealth)
    (hc : ¬ (h.errorCount + 1 ≥ cfg.maxFailures ∧ cfg.autoRestart = true))
    (hpre : ∀ n ∈ pre, ∃ hh, lookupHealth st n = some hh ∧ hh.healthy = true)
    (hpost : ∀ n ∈ post, ∃ hh, lookupHealth st n = some hh ∧ hh.healthy = true)
    (hlt : lookupHealth st t = some h) (htpost : t ∉ post) :
    (checkAllServices cfg (pre.map (fun n => (n, none)) ++
        (t, some e) :: post.map (fun n => (n, none))) st).restarted = none ∧
    (∃ h2, lookupHealth (checkAllServices cfg (pre.map (fun n => (n, none)) ++
          (t, some e) :: post.map (fun n => (n, none))) st).status t = some h2 ∧
        h2.healthy = false ∧ h2.errorCount = h.errorCount + 1 ∧
        h2.restartCount = h.restartCount) ∧
    (∀ n ∈ pre ++ post, n ≠ t →
      ∃ hh, lookupHealth (checkAllServices cfg (pre.map (fun n => (n, none)) ++
          (t, some e) :: post.map (fun n => (n, none))) st).status n = some hh ∧
        hh.healthy = true) := by
  have hchunk := checkAllServices_healthy_chunk cfg pre st hpre
  have happ := checkAllServices_append_cont cfg (pre.map (fun n => (n, none)))
    ((t, some e) :: post.map (fun n => (n, none))) st hchunk.1
  obtain ⟨h1, hf1, hn1, hh1, he1, hr1c⟩ := hchunk.2.2.2 t h hlt
  have hc1 : ¬ (h1.errorCount + 1 ≥ cfg.maxFailures ∧ cfg.autoRestart = true) := by
    rw [he1]; exact hc
  obtain ⟨hstep, hrestart⟩ := checkService_fail_no_restart cfg t e h1 hc1
  have hcons := checkAllServices_cons_continue cfg t (some e)
    (post.map (fun n => (n, none)))
    (checkAllServices cfg (pre.map (fun n => (n, none))) st).status h1 hf1 hrestart
  have hname2 : (checkService cfg t (some e) h1).health.name = t := by
    rw [checkService_health_name]
    exact lookupHealth_name _ t h1 hf1
  have hpost2 : ∀ n ∈ post,
      ∃ hh, lookupHealth (updateHealth
          (checkAllServices cfg (pre.map (fun n => (n, none))) st).status t
          (checkService cfg t (some e) h1).health) n = some hh ∧
        hh.healthy = true := by
    intro n hn
    obtain ⟨hh0, hf0, hh0h⟩ := hpost n hn
    obtain ⟨hhm, hfm, _, hhh, _, _⟩ := hchunk.2.2.2 n hh0 hf0
    have hne : n ≠ t := fun hteq => htpost (hteq ▸ hn)
    rw [lookupHealth_updateHealth_ne _ t _ hname2 n hne]
    exact ⟨hhm, hfm, by rw [hhh]; exact hh0h⟩
  have hchunk2 := checkAllServices_healthy_chunk cfg post _ hpost2
  have hftop : lookupHealth (updateHealth
      (checkAllServices cfg (pre.map (fun n => (n, none))) st).status t
      (checkService cfg t (some e) h1).health) t =
        some (checkService cfg t (some e) h1).health :=
    lookupHealth_updateHealth_eq _ t _ h1 hname2 hf1
  rw [happ, hcons]
  refine ⟨hchunk2.1, ?_, ?_⟩
  · obtain ⟨h2, hf2, _, g2, g3, g4⟩ :=
      hchunk2.2.2.2 t (checkService cfg t (some e) h1).health hftop
    refine ⟨h2, hf2, ?_, ?_, ?_⟩
    · rw [g2, hstep]
    · rw [g3, hstep]; simp [he1]
    · rw [g4, hstep]; simp [hr1c]
  · intro n hn hne
    have hn0 : ∃ hh, lookupHealth st n = some hh ∧ hh.healthy = true := by
      rcases List.mem_append.mp hn with hn | hn
      · exact hpre n hn
      · exact hpost n hn
    obtain ⟨hh0, hf0, hh0h⟩ := hn0
    obtain ⟨hhm, hfm, _, hhh, _, _⟩ := hchunk.2.2.2 n hh0 hf0
    have hfm2 : lookupHealth (updateHealth
        (checkAllServices cfg (pre.map (fun n => (n, none))) st).status t
        (checkService cfg t (some e) h1).health) n = some hhm := by
      rw [lookupHealth_updateHealth_ne _ t _ hname2 n hne]
      exact hfm
    obtain ⟨hhf, hff, _, hfh, _, _⟩ := hchunk2.2.2.2 n hhm hfm2
    exact ⟨hhf, hff, by rw [hfh, hhh]; exact hh0h⟩

/-- One full tick in which every service before `t` succeeds and `t`'s
failure meets the restart condition: the scan stops at `t` with a restart,
zeroing its counter and bumping its restart count. -/
lemma tick_fail_restart (cfg : MonitoringConfig) (pre : List String)
    (post : List (String × Option String)) (t e : String)
    (st : List ServiceHealth) (h : ServiceHealth)
    (hc1 : h.errorCount + 1 ≥ cfg.maxFailures) (hc2 : cfg.autoRestart = true)
    (hpre : ∀ n ∈ pre, ∃ hh, lookupHealth st n = some hh ∧ hh.healthy = true)
    (hlt : lookupHealth st t = some h) :
    (checkAllServices cfg (pre.map (fun n => (n, none)) ++
        (t, some e) :: post) st).restarted = some t ∧
    ∃ h2, lookupHealth (checkAllServices cfg (pre.map (fun n => (n, none)) ++
          (t, some e) :: post) st).status t = some h2 ∧
      h2.healthy = false ∧ h2.errorCount = 0 ∧
      h2.restartCount = h.restartCount + 1 := by
  have hchunk := checkAllServices_healthy_chunk cfg pre st hpre
  have happ := checkAllServices_append_cont cfg (pre.map (fun n => (n, none)))
    ((t, some e) :: post) st hchunk.1
  obtain ⟨h1, hf1, hn1, hh1, he1, hr1c⟩ := hchunk.2.2.2 t h hlt
  have hc1a : h1.errorCount + 1 ≥ cfg.maxFailures := by rw [he1]; exact hc1
  obtain ⟨hstep, hrestart⟩ := checkService_fail_restart cfg t e h1 hc1a hc2
  have hcons := checkAllServices_cons_restart cfg t (some e) post
    (checkAllServices cfg (pre.map (fun n => (n, none))) st).status h1 hf1 hrestart
  have hname2 : (checkService cfg t (some e) h1).health.name = t := by
    rw [checkService_health_name]
    exact lookupHealth_name _ t h1 hf1
  rw [happ, hcons]
  refine ⟨rfl, (checkService cfg t (some e) h1).health, ?_, ?_, ?_, ?_⟩
  · exact lookupHealth_updateHealth_eq _ t _ h1 hname2 hf1
  · rw [hstep]
  · rw [hstep]
  · rw [hstep]; simp [hr1c]

/-! ## Helper lemmas for the exposition round-trip -/

/-- Splitting at a separator that heads the remainder. -/
lemma splitOnChar_sep_append (sep : Char) (l rest : List Char)
    (hl : ∀ c ∈ l, c ≠ sep) :
    splitOnChar sep (l ++ sep :: rest) = l :: splitOnChar sep rest := by
  induction l with
  | nil => simp [splitOnChar]
  | cons c l ih =>
      have hc : c ≠ sep := hl c (by simp)
      have ih2 := ih (fun x hx => hl x (by simp [hx]))
      simp only [List.cons_append, splitOnChar, List.append_eq]
      rw [if_neg hc, ih2]

/-- Splitting a separator-free list is the identity chunk. -/
lemma splitOnChar_no_sep (sep : Char) (l : List Char) (hl : ∀ c ∈ l, c ≠ sep) :
    splitOnChar sep l = [l] := by
  induction l with
  | nil => rfl
  | cons c l ih =>
      have hc : c ≠ sep := hl c (by simp)
      have ih2 := ih (fun x hx => hl x (by simp [hx]))
      simp [splitOnChar, ih2, hc]

/-- `takeWhile`/`dropWhile` across a satisfying prefix followed by a
failing character. -/
lemma takeWhile_append_stop (p : Char → Bool) (l : List Char) (c : Char)
    (rest : List Char) (hl : ∀ x ∈ l, p x = true) (hc : p c = false) :
    (l ++ c :: rest).takeWhile p = l ∧ (l ++ c :: rest).dropWhile p = c :: rest := by
  induction l with
  | nil => simp [hc]
  | cons x l ih =>
      have hx := hl x (by simp)
      have ih2 := ih (fun y hy => hl y (by simp [hy]))
      simp [hx, ih2]

/-- The characters of one rendered `key="value"` label item. -/
lemma labelItem_data (kv : String × String) :
    (labelItem kv).data = kv.1.data ++ '=' :: '"' :: (kv.2.data ++ ['"']) := by
  have h1 : ("=\"" : String).data = '=' :: ['"'] := rfl
  have h2 : ("\"" : String).data = ['"'] := rfl
  simp [labelItem, String.data_append, h1, h2]

/-- A rendered label block for a nonempty label list is nonempty. -/
lemma labelString_cons_ne_empty (kv : String × String)
    (rest : List (String × String)) : labelString (kv :: rest) ≠ "" := by
  intro h
  have hd := congrArg String.data h
  cases rest with
  | nil =>
      rw [show labelString [kv] = labelItem kv from rfl, labelItem_data] at hd
      simp at hd
  | cons kv2 rest2 =>
      rw [show labelString (kv :: kv2 :: rest2) =
        labelItem kv ++ "," ++ labelString (kv2 :: rest2) from rfl] at hd
      rw [String.data_append, String.data_append, labelItem_data] at hd
      simp at hd

/-- The rendered label block is empty exactly for the empty label list. -/
lemma labelString_eq_empty_iff (labels : List (String × String)) :
    labelString labels = "" ↔ labels = [] := by
  cases labels with
  | nil => simp [labelString, joinSep]
  | cons kv rest =>
      constructor
      · intro h; exact absurd h (labelString_cons_ne_empty kv rest)
      · intro h; cases h

/-- The metric text is the header line, a newline, the sample line, and a
newline, prepended to whatever follows. -/
lemma renderMetric_data (m : Metric) (rest : List Char) :
    (renderMetric m).data ++ rest =
      headerChars m ++ '\n' :: (sampleChars m ++ '\n' :: rest) := by
  have hg : (" gauge\n" : String).data = " gauge".data ++ ['\n'] := rfl
  have hnl : ("\n" : String).data = ['\n'] := rfl
  have hob : ("\x7b" : String).data = ['\x7b'] := rfl
  have hcb : ("\x7d " : String).data = '\x7d' :: [' '] := rfl
  have hsp : (" " : String).data = [' '] := rfl
  unfold renderMetric headerChars sampleChars
  split
  · next h =>
      simp [h, String.data_append, hg, hnl, hsp]
  · next h =>
      simp [h, String.data_append, hg, hnl, hob, hcb]

/-- The full exposition text is the concatenation of the per-metric
texts. -/
lemma renderMetrics_data (ms : List Metric) :
    (renderMetrics ms).data =
      ms.foldr (fun m acc => (renderMetric m).data ++ acc) [] := by
  suffices aux : ∀ (ms : List Metric) (s : String),
      (ms.foldl (fun out m => out ++ renderMetric m) s).data =
        s.data ++ ms.foldr (fun m acc => (renderMetric m).data ++ acc) [] by
    have := aux ms ""
    simpa [renderMetrics] using this
  intro ms
  induction ms with
  | nil => intro s; simp
  | cons m ms ih =>
      intro s
      simp [List.foldl_cons, List.foldr_cons, ih, String.data_append,
        List.append_assoc]

/-- Header lines are skipped by the line parser. -/
lemma parseSampleLine_header (m : Metric) :
    parseSampleLine (headerChars m) = none := by
  have h0 : headerChars m = '#' :: (" TYPE ".data ++ m.name.data ++ " gauge".data) := by
    have : ("# TYPE " : String).data = '#' :: (" TYPE " : String).data := rfl
    simp [headerChars, this]
  rw [h0]
  simp [parseSampleLine]

/-- Parsing one rendered label item recovers the pair. -/
lemma parseLabelItem_labelItem (kv : String × String)
    (hk : ∀ c ∈ kv.1.data, c ≠ '=') (hv : ∀ c ∈ kv.2.data, c ≠ '"') :
    parseLabelItem (labelItem kv).data = some kv := by
  rw [labelItem_data]
  have hpk : ∀ x ∈ kv.1.data, (fun c => c != '=') x = true :=
    fun x hx => bne_iff_ne.mpr (hk x hx)
  have htw := takeWhile_append_stop (fun c => c != '=') kv.1.data '='
    ('"' :: (kv.2.data ++ ['"'])) hpk (by rfl)
  have hpv : ∀ x ∈ kv.2.data, (fun c => c != '"') x = true :=
    fun x hx => bne_iff_ne.mpr (hv x hx)
  have htv := takeWhile_append_stop (fun c => c != '"') kv.2.data '"' [] hpv (by rfl)
  simp only [parseLabelItem, htw.1, htw.2]
  simp only [htv.1, htv.2]

/-- Characters of a rendered label item, under the well-formedness bounds
of `wfMetric`. -/
lemma labelItem_chars (kv : String × String)
    (hk : ∀ c ∈ kv.1.data, c ≠ ',' ∧ c ≠ '\x7d' ∧ c ≠ '\n')
    (hv : ∀ c ∈ kv.2.data, c ≠ ',' ∧ c ≠ '\x7d' ∧ c ≠ '\n') :
    ∀ c ∈ (labelItem kv).data, c ≠ ',' ∧ c ≠ '\x7d' ∧ c ≠ '\n' := by
  rw [labelItem_data]
  intro c hcmem
  simp only [List.mem_append, List.mem_cons, List.mem_singleton,
    List.not_mem_nil, or_false] at hcmem
  rcases hcmem with h | h | h | h | h
  · exact hk c h
  · subst h; exact ⟨by decide, by decide, by decide⟩
  · subst h; exact ⟨by decide, by decide, by decide⟩
  · exact hv c h
  · subst h; exact ⟨by decide, by decide, by decide⟩

/-- Characters of a rendered label block, under the well-formedness
bounds of `wfMetric`. -/
lemma labelString_chars (labels : List (String × String))
    (hwf : ∀ kv ∈ labels,
      (∀ c ∈ (kv : String × String).1.data,
        c ≠ '=' ∧ c ≠ ',' ∧ c ≠ '\x7d' ∧ c ≠ '\n') ∧
      (∀ c ∈ (kv : String × String).2.data,
        c ≠ '"' ∧ c ≠ ',' ∧ c ≠ '\x7d' ∧ c ≠ '\n')) :
    ∀ c ∈ (labelString labels).data, c ≠ '\x7d' ∧ c ≠ '\n' := by
  induction labels with
  | nil => intro c hc; simp [labelString, joinSep] at hc
  | cons kv rest ih =>
      intro c hc
      have hitem := labelItem_chars kv
        (fun x hx => ((hwf kv (by simp)).1 x hx).2)
        (fun x hx => ((hwf kv (by simp)).2 x hx).2)
      cases rest with
      | nil =>
          rw [show labelString [kv] = labelItem kv from rfl] at hc
          exact ⟨(hitem c hc).2.1, (hitem c hc).2.2⟩
      | cons kv2 rest2 =>
          rw [show labelString (kv :: kv2 :: rest2) =
            labelItem kv ++ "," ++ labelString (kv2 :: rest2) from rfl,
            String.data_append, String.data_append] at hc
          simp only [List.mem_append] at hc
          rcases hc with (hc | hc) | hc
          · exact ⟨(hitem c hc).2.1, (hitem c hc).2.2⟩
          · have hcc : c = ',' := by simpa using hc
            subst hcc; exact ⟨by decide, by decide⟩
          · exact ih (fun kv3 h3 => hwf kv3 (by simp [h3])) c hc

/-- Parsing a rendered nonempty label block recovers the label list. -/
lemma parseLabels_labelString (labels : List (String × String))
    (hne : labels ≠ [])
    (hwf : ∀ kv ∈ labels,
      (∀ c ∈ (kv : String × String).1.data,
        c ≠ '=' ∧ c ≠ ',' ∧ c ≠ '\x7d' ∧ c ≠ '\n') ∧
      (∀ c ∈ (kv : String × String).2.data,
        c ≠ '"' ∧ c ≠ ',' ∧ c ≠ '\x7d' ∧ c ≠ '\n')) :
    parseLabels (labelString labels).data = some labels := by
  induction labels with
  | nil => exact absurd rfl hne
  | cons kv rest ih =>
      have hk : ∀ c ∈ kv.1.data, c ≠ '=' :=
        fun c hc => ((hwf kv (by simp)).1 c hc).1
      have hv : ∀ c ∈ kv.2.data, c ≠ '"' :=
        fun c hc => ((hwf kv (by simp)).2 c hc).1
      have hitem := labelItem_chars kv
        (fun x hx => ((hwf kv (by simp)).1 x hx).2)
        (fun x hx => ((hwf kv (by simp)).2 x hx).2)
      have hnocomma : ∀ c ∈ (labelItem kv).data, c ≠ ',' :=
        fun c hc => (hitem c hc).1
      cases rest with
      | nil =>
          rw [show labelString [kv] = labelItem kv from rfl]
          unfold parseLabels
          rw [splitOnChar_no_sep ',' (labelItem kv).data hnocomma]
          simp only [parseLabelList]
          rw [parseLabelItem_labelItem kv hk hv]
      | cons kv2 rest2 =>
          have hshape : (labelString (kv :: kv2 :: rest2)).data =
              (labelItem kv).data ++ ',' :: (labelString (kv2 :: rest2)).data := by
            rw [show labelString (kv :: kv2 :: rest2) =
              labelItem kv ++ "," ++ labelString (kv2 :: rest2) from rfl,
              String.data_append, String.data_append]
            have hcd : ("," : String).data = [','] := rfl
            rw [hcd, List.append_assoc, List.singleton_append]
          unfold parseLabels
          rw [hshape, splitOnChar_sep_append ',' _ _ hnocomma]
          simp only [parseLabelList]
          rw [parseLabelItem_labelItem kv hk hv]
          have ihr := ih (by simp) (fun kv3 h3 => hwf kv3 (by simp [h3]))
          unfold parseLabels at ihr
          rw [ihr]

/-- Parsing a rendered sample line recovers the metric's
`(name, labels, value)` triple. -/
lemma parseSampleLine_sample (m : Metric) (hwf : wfMetric m) :
    parseSampleLine (sampleChars m) = some (metricTriple m) := by
  obtain ⟨⟨hne, hnchars⟩, hvchars, hlwf⟩ := hwf
  obtain ⟨c0, nm0, hnd⟩ : ∃ c0 nm0, m.name.data = c0 :: nm0 := by
    cases hd : m.name.data with
    | nil => exact absurd (String.ext (hd.trans rfl)) hne
    | cons a b => exact ⟨a, b, rfl⟩
  have hp : ∀ x ∈ m.name.data, (fun c => c != '\x7b' && c != ' ') x = true := by
    intro x hx
    obtain ⟨_, hb, hs, _⟩ := hnchars x hx
    simp [bne_iff_ne.mpr hb, bne_iff_ne.mpr hs]
  have hc0 : ¬ c0 = '#' := (hnchars c0 (by rw [hnd]; simp)).1
  unfold sampleChars
  by_cases hls : labelString m.labels = ""
  · have hlempty : m.labels = [] := (labelString_eq_empty_iff m.labels).mp hls
    rw [if_pos hls]
    have htw := takeWhile_append_stop (fun c => c != '\x7b' && c != ' ')
      m.name.data ' ' m.value.data hp (by rfl)
    rw [hnd, List.cons_append]
    simp only [parseSampleLine]
    rw [if_neg hc0]
    rw [← List.cons_append, ← hnd, htw.1, htw.2]
    simp [metricTriple, hlempty]
  · rw [if_neg hls]
    have hlne : m.labels ≠ [] := by
      intro h
      rw [h] at hls
      exact hls rfl
    have htw := takeWhile_append_stop (fun c => c != '\x7b' && c != ' ')
      m.name.data '\x7b'
      ((labelString m.labels).data ++ '\x7d' :: ' ' :: m.value.data) hp (by rfl)
    have hlschars := labelString_chars m.labels hlwf
    have hpl : ∀ x ∈ (labelString m.labels).data, (fun c => c != '\x7d') x = true :=
      fun x hx => bne_iff_ne.mpr (hlschars x hx).1
    have htl := takeWhile_append_stop (fun c => c != '\x7d')
      (labelString m.labels).data '\x7d' (' ' :: m.value.data) hpl (by rfl)
    have hplabels := parseLabels_labelString m.labels hlne hlwf
    rw [hnd, List.cons_append]
    simp only [parseSampleLine]
    rw [if_neg hc0]
    rw [← List.cons_append, ← hnd, htw.1, htw.2]
    simp only [htl.1, htl.2]
    rw [hplabels]
    simp [metricTriple]

/-- Header lines contain no newline. -/
lemma headerChars_no_newline (m : Metric)
    (hn : ∀ c ∈ m.name.data, c ≠ '#' ∧ c ≠ '\x7b' ∧ c ≠ ' ' ∧ c ≠ '\n') :
    ∀ c ∈ headerChars m, c ≠ '\n' := by
  intro c hc
  unfold headerChars at hc
  simp only [List.mem_append] at hc
  have hlit1 : ∀ c ∈ ("# TYPE " : String).data, c ≠ '\n' := by decide
  have hlit2 : ∀ c ∈ (" gauge" : String).data, c ≠ '\n' := by decide
  rcases hc with (hc | hc) | hc
  · exact hlit1 c hc
  · exact (hn c hc).2.2.2
  · exact hlit2 c hc

/-- Sample lines contain no newline. -/
lemma sampleChars_no_newline (m : Metric) (hwf : wfMetric m) :
    ∀ c ∈ sampleChars m, c ≠ '\n' := by
  obtain ⟨⟨_, hnchars⟩, hvchars, hlwf⟩ := hwf
  intro c hc
  unfold sampleChars at hc
  split at hc
  · simp only [List.mem_append, List.mem_cons] at hc
    rcases hc with hc | hc | hc
    · exact (hnchars c hc).2.2.2
    · subst hc; decide
    · exact hvchars c hc
  · simp only [List.mem_append, List.mem_cons] at hc
    rcases hc with hc | hc | hc | hc | hc
    · exact (hnchars c hc).2.2.2
    · subst hc; decide
    · exact (labelString_chars m.labels hlwf c hc).2
    · subst hc; decide
    · rcases hc with hc | hc
      · subst hc; decide
      · exact hvchars c hc

/-- Line-splitting and line-parsing the rendered text of a list of
well-formed metrics yields exactly their triples. -/
lemma parse_render_lines (ms : List Metric) (hwf : ∀ m ∈ ms, wfMetric m) :
    (splitOnChar '\n'
        (ms.foldr (fun m acc => (renderMetric m).data ++ acc) [])).filterMap
      parseSampleLine = ms.map metricTriple := by
  induction ms with
  | nil => rfl
  | cons m ms ih =>
      have hwfm := hwf m (by simp)
      have hh := headerChars_no_newline m hwfm.1.2
      have hs := sampleChars_no_newline m hwfm
      rw [List.foldr_cons, renderMetric_data m _,
        splitOnChar_sep_append '\n' (headerChars m) _ hh,
        splitOnChar_sep_append '\n' (sampleChars m) _ hs]
      simp [List.filterMap_cons, parseSampleLine_header m,
        parseSampleLine_sample m hwfm, ih (fun x hx => hwf x (by simp [hx]))]

end USBNode

/-! ## Claim theorems -/

namespace USBNode

/-- **C9.** For every alert-log contents, `clear_resolved_alerts()` removes
exactly the alerts whose `resolved` flag is true and leaves every alert
with `resolved == false` present, unchanged, and in the original relative
order (the surviving log is a sublist of the original). -/
theorem clear_resolved_alerts_spec (l : List Alert) :
    (clearResolvedAlerts l).Sublist l ∧
      ∀ a : Alert, a ∈ clearResolvedAlerts l ↔ a ∈ l ∧ a.resolved = false := by
  refine ⟨List.filter_sublist l, fun a => ?_⟩
  simp [clearResolvedAlerts, List.mem_filter]

/-- **C1.** The claim fails on the code: with two registered services where
the first one scanned fails and reaches the failure threshold (threshold 1,
auto-restart on), `Monitor::check_all_services` executes the restart and
`return`s at once, so the second service's `health_check()` is never
invoked that tick (`checked = ["a"]`), its health record is left untouched,
and the restart runs before the scan of the remaining services rather than
after the full evaluation.  This is the starvation defect the spec's §9
explicitly corrects. -/
theorem check_all_services_skips_after_restart :
    (checkAllServices ⟨true, 1, 1, true⟩ [("a", some "boom"), ("b", none)]
        [initHealth "a", initHealth "b"]).checked = ["a"] ∧
    (checkAllServices ⟨true, 1, 1, true⟩ [("a", some "boom"), ("b", none)]
        [initHealth "a", initHealth "b"]).restarted = some "a" ∧
    lookupHealth (checkAllServices ⟨true, 1, 1, true⟩
        [("a", some "boom"), ("b", none)]
        [initHealth "a", initHealth "b"]).status "b" = some (initHealth "b") := by
  decide

/-- **C10.** No alert produced by the health-check scan has severity
`Error`: every alert it emits is Info (only the recovery alert, created
resolved) or Warning/Critical (only failure alerts, created unresolved),
even though the `Error` variant exists in `AlertSeverity`. -/
theorem check_alerts_never_error_severity (cfg : MonitoringConfig)
    (services : List (String × Option String)) (st : List ServiceHealth) :
    ∀ a ∈ (checkAllServices cfg services st).alerts,
      a.severity ≠ AlertSeverity.error ∧
      (a.severity = AlertSeverity.info → a.resolved = true) ∧
      (a.severity = AlertSeverity.warning ∨ a.severity = AlertSeverity.critical →
        a.resolved = false) := by
  intro a ha
  obtain ⟨name, result, stMid, h, _, hmem⟩ :=
    mem_checkAllServices_alerts cfg services st a ha
  rcases checkService_alerts cfg name result h a hmem with ⟨hs, hr⟩ | ⟨hs, hr⟩
  · exact ⟨(by rw [hs]; intro hc; cases hc), fun _ => hr,
      (by rw [hs]; rintro (hc | hc) <;> cases hc)⟩
  · rcases hs with hs | hs
    · exact ⟨(by rw [hs]; intro hc; cases hc), (by rw [hs]; intro hc; cases hc),
        fun _ => hr⟩
    · exact ⟨(by rw [hs]; intro hc; cases hc), (by rw [hs]; intro hc; cases hc),
        fun _ => hr⟩

/-- The per-service body keeps the invariant "a healthy record has a zero
consecutive-failure counter". -/
lemma checkService_preserves_inv (cfg : MonitoringConfig) (name : String)
    (o : Option String) (h : ServiceHealth)
    (hi : h.healthy = true → h.errorCount = 0) :
    (checkService cfg name o h).health.healthy = true →
      (checkService cfg name o h).health.errorCount = 0 := by
  cases o with
  | none =>
      cases hh : h.healthy with
      | true => intro _; simp [checkService, hh]; exact hi hh
      | false => intro _; simp [checkService, hh]
  | some e =>
      simp only [checkService]
      split
      · intro _; rfl
      · intro hc; simp at hc

/-- Along any sequence of processed outcomes from registration, a healthy
record has a zero consecutive-failure counter. -/
lemma runOutcomes_inv (cfg : MonitoringConfig) (name : String)
    (os : List (Option String)) :
    (runOutcomes cfg name os).healthy = true →
      (runOutcomes cfg name os).errorCount = 0 := by
  suffices hgen : ∀ (os : List (Option String)) (h : ServiceHealth),
      (h.healthy = true → h.errorCount = 0) →
      ((os.foldl (fun h o => (checkService cfg name o h).health) h).healthy = true →
        (os.foldl (fun h o => (checkService cfg name o h).health) h).errorCount = 0) by
    exact hgen os (initHealth name) (fun _ => rfl)
  intro os
  induction os with
  | nil => intro h hi; exact hi
  | cons o rest ih =>
      intro h hi
      exact ih _ (checkService_preserves_inv cfg name o h hi)

/-- **C3.** For every registered service and every sequence of
health-check outcomes processed for it by the supervisor loop, the next
processed outcome leaves the consecutive-failure counter at 0 exactly when
that outcome is a success or a threshold-triggered restart fired — and the
restart branch fires exactly on a failing check whose recorded count
reaches the threshold with auto-restart enabled.  (A success on an
already-healthy record does not assign the counter, but it is already 0 —
the invariant `runOutcomes_inv`.) -/
theorem error_count_reset_exactly_on_success_or_restart (cfg : MonitoringConfig)
    (name : String) (os : List (Option String)) (o : Option String) :
    ((checkService cfg name o (runOutcomes cfg name os)).health.errorCount = 0 ↔
      o = none ∨ (checkService cfg name o (runOutcomes cfg name os)).restart = true) ∧
    ((checkService cfg name o (runOutcomes cfg name os)).restart = true ↔
      o ≠ none ∧ (runOutcomes cfg name os).errorCount + 1 ≥ cfg.maxFailures ∧
        cfg.autoRestart = true) := by
  set h := runOutcomes cfg name os with hh
  have hi : h.healthy = true → h.errorCount = 0 := runOutcomes_inv cfg name os
  cases o with
  | none =>
      constructor
      · cases hhl : h.healthy with
        | true => simp [checkService, hhl, hi hhl]
        | false => simp [checkService, hhl]
      · cases hhl : h.healthy with
        | true => simp [checkService, hhl]
        | false => simp [checkService, hhl]
  | some e =>
      by_cases hc : h.errorCount + 1 ≥ cfg.maxFailures ∧ cfg.autoRestart = true
      · obtain ⟨hc1, hc2⟩ := hc
        constructor
        · simp [checkService, hc1, hc2]
        · simp [checkService, hc1, hc2]
      · have hcb : ¬ (h.errorCount + 1 ≥ cfg.maxFailures ∧ cfg.autoRestart = true) := hc
        constructor
        · simp only [checkService]
          split
          · next hsp =>
              simp only [Bool.and_eq_true, decide_eq_true_eq] at hsp
              exact absurd ⟨hsp.1, hsp.2⟩ hcb
          · simp
        · simp only [checkService]
          split
          · next hsp =>
              simp only [Bool.and_eq_true, decide_eq_true_eq] at hsp
              exact absurd ⟨hsp.1, hsp.2⟩ hcb
          · simp
            intro hge
            cases har : cfg.autoRestart with
            | false => rfl
            | true => exact absurd ⟨hge, har⟩ hcb

/-- **C4.** Every failing health check emits exactly one failure alert for
the service (not edge-triggered), created unresolved; its severity is
Critical exactly when the consecutive-failure counter, after recording the
failure (`h.errorCount + 1`), reaches the configured threshold, and
Warning otherwise. -/
theorem failure_alert_every_failing_check (cfg : MonitoringConfig)
    (name e : String) (h : ServiceHealth) :
    (checkService cfg name (some e) h).alerts.length = 1 ∧
    ∀ a ∈ (checkService cfg name (some e) h).alerts,
      a.resolved = false ∧
      (a.severity = AlertSeverity.critical ↔ h.errorCount + 1 ≥ cfg.maxFailures) ∧
      (a.severity = AlertSeverity.warning ↔ ¬ h.errorCount + 1 ≥ cfg.maxFailures) := by
  by_cases hc : h.errorCount + 1 ≥ cfg.maxFailures
  · constructor
    · simp only [checkService]; split <;> rfl
    · intro a ha
      simp only [checkService] at ha
      split at ha <;> simp [hc] at ha <;> subst ha <;> simp [hc]
  · constructor
    · simp only [checkService]; split <;> rfl
    · intro a ha
      simp only [checkService] at ha
      split at ha <;> simp [hc] at ha <;> subst ha <;> simp [hc]

/-- **C5.** The scan body emits a "recovered" Info alert exactly when the
recorded state before the check was unhealthy and the current check
succeeds (edge-triggered: on repeated successes it emits nothing at all);
the recovery alert is created with `resolved = true` while every other
(failure) alert is created with `resolved = false`, and the embedding's
alert values are immutable terms that the alert-processor task only
appends to the log. -/
theorem recovery_alert_edge_triggered (cfg : MonitoringConfig) (name : String)
    (o : Option String) (h : ServiceHealth) :
    ((∃ a ∈ (checkService cfg name o h).alerts,
        a.severity = AlertSeverity.info) ↔ h.healthy = false ∧ o = none) ∧
    (∀ a ∈ (checkService cfg name o h).alerts,
      (a.severity = AlertSeverity.info → a.resolved = true) ∧
      (a.severity ≠ AlertSeverity.info → a.resolved = false)) ∧
    (h.healthy = true → o = none → (checkService cfg name o h).alerts = []) := by
  refine ⟨?_, ?_, ?_⟩
  · cases o with
    | none =>
        cases hh : h.healthy with
        | true => simp [checkService, hh]
        | false => simp [checkService, hh]
    | some e =>
        constructor
        · rintro ⟨a, ha, hs⟩
          exfalso
          simp only [checkService] at ha
          split at ha <;>
            (simp only [List.mem_singleton] at ha; subst ha; revert hs; split <;> simp)
        · rintro ⟨_, hc⟩; cases hc
  · intro a ha
    rcases checkService_alerts cfg name o h a ha with ⟨hs, hr⟩ | ⟨hs, hr⟩
    · exact ⟨fun _ => hr, fun hn => absurd hs hn⟩
    · refine ⟨fun hin => ?_, fun _ => hr⟩
      rcases hs with hs | hs <;> rw [hs] at hin <;> cases hin
  · intro hh ho
    subst ho
    simp [checkService, hh]

/-- **C2.** With `failure_threshold = 3` and `auto_restart` enabled, a
service `t` whose checks fail on three consecutive ticks receives exactly
one restart call — on the third tick — and immediately afterwards its
health record has `consecutive_failures = 0` and `restart_count = 1`,
regardless of how many other (healthy) services are registered before or
after it in iteration order. -/
theorem three_failures_trigger_single_restart (en : Bool) (ci : Nat)
    (pre post : List String) (t e1 e2 e3 : String) (st0 : List ServiceHealth)
    (htpre : t ∉ pre) (htpost : t ∉ post)
    (hothers : ∀ n ∈ pre ++ post, lookupHealth st0 n = some (initHealth n))
    (ht0 : lookupHealth st0 t = some (initHealth t)) :
    ((runTicks ⟨en, ci, 3, true⟩
        [scenarioTick pre post t e1, scenarioTick pre post t e2,
         scenarioTick pre post t e3] st0).2.map TickResult.restarted).reduceOption
      = [t] ∧
    ∃ hf, lookupHealth (runTicks ⟨en, ci, 3, true⟩
        [scenarioTick pre post t e1, scenarioTick pre post t e2,
         scenarioTick pre post t e3] st0).1 t = some hf ∧
      hf.errorCount = 0 ∧ hf.restartCount = 1 := by
  have hpre0 : ∀ n ∈ pre, ∃ hh, lookupHealth st0 n = some hh ∧ hh.healthy = true :=
    fun n hn => ⟨initHealth n, hothers n (List.mem_append_left _ hn), rfl⟩
  have hpost0 : ∀ n ∈ post, ∃ hh, lookupHealth st0 n = some hh ∧ hh.healthy = true :=
    fun n hn => ⟨initHealth n, hothers n (List.mem_append_right _ hn), rfl⟩
  have hc0 : ¬ ((initHealth t).errorCount + 1 ≥
      (⟨en, ci, 3, true⟩ : MonitoringConfig).maxFailures ∧
      (⟨en, ci, 3, true⟩ : MonitoringConfig).autoRestart = true) := by
    rintro ⟨hge, _⟩
    simp [initHealth] at hge
  obtain ⟨hr1, ⟨g1, hg1, gh1, ge1, gr1⟩, hothers1⟩ :=
    tick_fail_no_restart ⟨en, ci, 3, true⟩ pre post t e1 st0 (initHealth t)
      hc0 hpre0 hpost0 ht0 htpost
  have hpre1 : ∀ n ∈ pre, ∃ hh,
      lookupHealth (checkAllServices ⟨en, ci, 3, true⟩
        (scenarioTick pre post t e1) st0).status n = some hh ∧ hh.healthy = true :=
    fun n hn => hothers1 n (List.mem_append_left _ hn) (fun he => htpre (he ▸ hn))
  have hpost1 : ∀ n ∈ post, ∃ hh,
      lookupHealth (checkAllServices ⟨en, ci, 3, true⟩
        (scenarioTick pre post t e1) st0).status n = some hh ∧ hh.healthy = true :=
    fun n hn => hothers1 n (List.mem_append_right _ hn) (fun he => htpost (he ▸ hn))
  have hc1 : ¬ (g1.errorCount + 1 ≥
      (⟨en, ci, 3, true⟩ : MonitoringConfig).maxFailures ∧
      (⟨en, ci, 3, true⟩ : MonitoringConfig).autoRestart = true) := by
    rintro ⟨hge, _⟩
    rw [ge1] at hge
    simp [initHealth] at hge
  obtain ⟨hr2, ⟨g2, hg2, gh2, ge2, gr2⟩, hothers2⟩ :=
    tick_fail_no_restart ⟨en, ci, 3, true⟩ pre post t e2 _ g1
      hc1 hpre1 hpost1 hg1 htpost
  have hpre2 : ∀ n ∈ pre, ∃ hh,
      lookupHealth (checkAllServices ⟨en, ci, 3, true⟩ (scenarioTick pre post t e2)
        (checkAllServices ⟨en, ci, 3, true⟩
          (scenarioTick pre post t e1) st0).status).status n = some hh ∧
        hh.healthy = true :=
    fun n hn => hothers2 n (List.mem_append_left _ hn) (fun he => htpre (he ▸ hn))
  have hc2 : g2.errorCount + 1 ≥
      (⟨en, ci, 3, true⟩ : MonitoringConfig).maxFailures := by
    rw [ge2, ge1]
    simp [initHealth]
  obtain ⟨hr3, g3, hg3, gh3, ge3, gr3⟩ :=
    tick_fail_restart ⟨en, ci, 3, true⟩ pre (post.map (fun n => (n, none)))
      t e3 _ g2 hc2 rfl hpre2 hg2
  have hrest : g3.restartCount = 1 := by
    rw [gr3, gr2, gr1]
    rfl
  constructor
  · show (List.map TickResult.restarted _).reduceOption = [t]
    simp only [runTicks, scenarioTick, List.map_cons, List.map_nil] at hr1 hr2 hr3 ⊢
    rw [hr1, hr2, hr3]
    rfl
  · refine ⟨g3, ?_, ge3, hrest⟩
    show lookupHealth _ t = some g3
    simp only [runTicks, scenarioTick] at hg3 ⊢
    exact hg3

/-- Witness for C2 at a concrete input: services `x`, `t`, `y` with `t`
failing three ticks at threshold 3 — exactly one restart, of `t`. -/
theorem three_failures_trigger_single_restart_witness :
    ((runTicks ⟨true, 1, 3, true⟩
        [scenarioTick ["x"] ["y"] "t" "boom", scenarioTick ["x"] ["y"] "t" "boom",
         scenarioTick ["x"] ["y"] "t" "boom"]
        [initHealth "x", initHealth "t", initHealth "y"]).2.map
          TickResult.restarted).reduceOption = ["t"] :=
  (three_failures_trigger_single_restart true 1 ["x"] ["y"] "t" "boom" "boom" "boom"
    [initHealth "x", initHealth "t", initHealth "y"]
    (by decide) (by decide) (by decide) (by decide)).1

/-- Witness for C4 at a concrete input: the first failure below a
threshold of 3 yields a single Warning alert, created unresolved. -/
theorem failure_alert_every_failing_check_witness :
    (⟨AlertSeverity.warning, "a", "Health check failed: boom", false⟩ : Alert) ∈
      (checkService ⟨true, 1, 3, true⟩ "a" (some "boom") (initHealth "a")).alerts ∧
    (⟨AlertSeverity.warning, "a", "Health check failed: boom", false⟩ :
        Alert).resolved = false :=
  ⟨by decide,
   ((failure_alert_every_failing_check ⟨true, 1, 3, true⟩ "a" "boom"
      (initHealth "a")).2 _ (by decide)).1⟩

/-- Witness for C5 at a concrete input: a success on an unhealthy record
emits an Info recovery alert. -/
theorem recovery_alert_edge_triggered_witness :
    ∃ a ∈ (checkService ⟨true, 1, 3, true⟩ "a" none
        { initHealth "a" with healthy := false }).alerts,
      a.severity = AlertSeverity.info :=
  (recovery_alert_edge_triggered ⟨true, 1, 3, true⟩ "a" none
    { initHealth "a" with healthy := false }).1.mpr ⟨rfl, rfl⟩

/-- **C6.** Retry backoff: the tunnel monitor's backoff is at least the
1 s floor and at most the 60 s cap in every reachable state; a failed
respawn doubles it (capped at 60) and so never decreases it; a successful
respawn resets it to the floor; with floor 1 s, cap 60 s, multiplier 2 the
delays slept before attempts 1..7 of an uninterrupted failure streak are
1, 2, 4, 8, 16, 32, 60 seconds.  The DHCP lease loop's backoff likewise
doubles (2^attempt seconds: 2, 4, 8, 16 before its retries, the terminal
fifth failure sleeping nothing). -/
theorem retry_backoff_spec :
    (∀ os : List Bool, 1 ≤ tunnelBackoffAfter os ∧ tunnelBackoffAfter os ≤ 60) ∧
    (∀ os : List Bool,
      tunnelBackoffAfter (os ++ [false]) = min (tunnelBackoffAfter os * 2) 60) ∧
    (∀ os : List Bool, tunnelBackoffAfter os ≤ tunnelBackoffAfter (os ++ [false])) ∧
    (∀ os : List Bool, tunnelBackoffAfter (os ++ [true]) = 1) ∧
    ((List.range 7).map (fun i => tunnelBackoffAfter (List.replicate i false)) =
      [1, 2, 4, 8, 16, 32, 60]) ∧
    (∀ (e : Nat → String) (ifc : String),
      (requestLease (fun i => Except.error (e i)) (DhcpClient.new ifc)).delays =
        [2, 4, 8, 16]) := by
  have hstep : ∀ (b : Nat) (o : Bool), 1 ≤ b → b ≤ 60 →
      1 ≤ tunnelNextBackoff b o ∧ tunnelNextBackoff b o ≤ 60 := by
    intro b o h1 h2
    cases o with
    | true =>
        have ht : tunnelNextBackoff b true = 1 := rfl
        rw [ht]; omega
    | false =>
        have hf : tunnelNextBackoff b false = min (b * 2) 60 := rfl
        rw [hf]; omega
  have hbounds : ∀ (os : List Bool) (b : Nat), 1 ≤ b → b ≤ 60 →
      1 ≤ os.foldl tunnelNextBackoff b ∧ os.foldl tunnelNextBackoff b ≤ 60 := by
    intro os
    induction os with
    | nil => intro b h1 h2; exact ⟨h1, h2⟩
    | cons o rest ih =>
        intro b h1 h2
        obtain ⟨g1, g2⟩ := hstep b o h1 h2
        exact ih _ g1 g2
  have hb : ∀ os : List Bool, 1 ≤ tunnelBackoffAfter os ∧ tunnelBackoffAfter os ≤ 60 :=
    fun os => hbounds os 1 le_rfl (by norm_num)
  have hdouble : ∀ os : List Bool,
      tunnelBackoffAfter (os ++ [false]) = min (tunnelBackoffAfter os * 2) 60 := by
    intro os
    simp [tunnelBackoffAfter, List.foldl_append, tunnelNextBackoff]
  refine ⟨hb, hdouble, ?_, ?_, by decide, ?_⟩
  · intro os
    rw [hdouble os]
    have := hb os
    omega
  · intro os
    simp [tunnelBackoffAfter, List.foldl_append, tunnelNextBackoff]
  · intro e ifc
    rfl

/-- If every attempt in the remaining budget fails, the DHCP retry loop
ends in the terminal `Error` state carrying the last failure's reason and
returns that failure. -/
lemma requestLeaseLoop_all_fail (att : Nat → Except String DhcpLease)
    (e : Nat → String) :
    ∀ (fuel : Nat) (c : DhcpClient) (i : Nat),
      c.retryCount + fuel = c.maxRetries → 1 ≤ fuel →
      (∀ j, j < fuel → att (i + j) = Except.error (e (i + j))) →
      (requestLeaseLoop att fuel c i).client.state =
          DhcpState.error ("Max retries exceeded: " ++ e (i + fuel - 1)) ∧
      (requestLeaseLoop att fuel c i).result = Except.error (e (i + fuel - 1)) := by
  intro fuel
  induction fuel with
  | zero => intro c i _ h1 _; omega
  | succ m ih =>
      intro c i hsum _ hatt
      have hi : att i = Except.error (e i) := by
        have := hatt 0 (by omega); simpa using this
      cases m with
      | zero =>
          have hge : c.retryCount + 1 ≥ c.maxRetries := by omega
          simp [requestLeaseLoop, hi, hge]
      | succ n =>
          have hlt : ¬ c.retryCount + 1 ≥ c.maxRetries := by omega
          have hrec := ih { c with retryCount := c.retryCount + 1 } (i + 1)
            (by simp; omega) (by omega)
            (fun j hj => by
              rw [show i + 1 + j = i + (j + 1) by omega]
              exact hatt (j + 1) (by omega))
          rw [show i + 1 + (n + 1) - 1 = i + (n + 1 + 1) - 1 by omega] at hrec
          simpa [requestLeaseLoop, hi, hlt] using hrec

/-- If some attempt inside the remaining budget succeeds (after only
failures), the DHCP retry loop returns that lease with state `Bound` and a
zeroed retry counter. -/
lemma requestLeaseLoop_success (att : Nat → Except String DhcpLease)
    (lease : DhcpLease) :
    ∀ (k fuel : Nat) (c : DhcpClient) (i : Nat),
      k < fuel → fuel ≤ c.maxRetries - c.retryCount →
      (∀ j, j < k → ∃ m, att (i + j) = Except.error m) →
      att (i + k) = Except.ok lease →
      (requestLeaseLoop att fuel c i).client.state = DhcpState.bound ∧
      (requestLeaseLoop att fuel c i).client.retryCount = 0 ∧
      (requestLeaseLoop att fuel c i).client.currentLease = some lease ∧
      (requestLeaseLoop att fuel c i).result = Except.ok lease := by
  intro k
  induction k with
  | zero =>
      intro fuel c i hk _ _ hok
      cases fuel with
      | zero => omega
      | succ f =>
          have hi : att i = Except.ok lease := by simpa using hok
          simp [requestLeaseLoop, hi]
  | succ k ih =>
      intro fuel c i hk hfuel hfail hok
      cases fuel with
      | zero => omega
      | succ f =>
          obtain ⟨m, hm⟩ := hfail 0 (by omega)
          rw [show i + 0 = i by omega] at hm
          have hlt : ¬ c.retryCount + 1 ≥ c.maxRetries := by omega
          have hrec := ih f { c with retryCount := c.retryCount + 1 } (i + 1)
            (by omega) (by simp; omega)
            (fun j hj => by
              rw [show i + 1 + j = i + (j + 1) by omega]
              exact hfail (j + 1) (by omega))
            (by rw [show i + 1 + k = i + (k + 1) by omega]; exact hok)
          simpa [requestLeaseLoop, hm, hlt] using hrec

/-- **C8.** DHCP lease acquisition: when all `max_retries` attempts fail,
`request_lease` stops retrying, returns the last attempt's error, and
leaves the client in the terminal `Error` state carrying the failure
reason; when an attempt succeeds before the budget is exhausted, it
returns the lease, sets the state to `Bound`, stores the lease, and resets
the retry counter to 0. -/
theorem dhcp_request_lease_spec :
    (∀ (att : Nat → Except String DhcpLease) (c : DhcpClient) (e : Nat → String),
      1 ≤ c.maxRetries →
      (∀ j, j < c.maxRetries → att j = Except.error (e j)) →
      (requestLease att c).client.state =
          DhcpState.error ("Max retries exceeded: " ++ e (c.maxRetries - 1)) ∧
      (requestLease att c).result = Except.error (e (c.maxRetries - 1))) ∧
    (∀ (att : Nat → Except String DhcpLease) (c : DhcpClient) (k : Nat)
        (lease : DhcpLease),
      k < c.maxRetries →
      (∀ j, j < k → ∃ m, att j = Except.error m) →
      att k = Except.ok lease →
      (requestLease att c).result = Except.ok lease ∧
      (requestLease att c).client.state = DhcpState.bound ∧
      (requestLease att c).client.retryCount = 0 ∧
      (requestLease att c).client.currentLease = some lease) := by
  constructor
  · intro att c e h1 hatt
    have := requestLeaseLoop_all_fail att e c.maxRetries
      { c with state := DhcpState.requesting, retryCount := 0 } 0
      (by simp) h1 (fun j hj => by simpa using hatt j hj)
    simpa [requestLease] using this
  · intro att c k lease hk hfail hok
    have := requestLeaseLoop_success att lease k c.maxRetries
      { c with state := DhcpState.requesting, retryCount := 0 } 0
      hk (by simp) (fun j hj => by simpa using hfail j hj) (by simpa using hok)
    exact ⟨this.2.2.2, this.1, this.2.1, this.2.2.1⟩

/-- Witness for C8 at concrete inputs: with the default client
(`max_retries = 5`), five failures end in the terminal error state, and a
success at the third attempt returns the lease, bound, with the counter
reset. -/
theorem dhcp_request_lease_spec_witness :
    ((requestLease (fun j => Except.error ("e" ++ toString j))
        (DhcpClient.new "eth0")).client.state =
      DhcpState.error ("Max retries exceeded: " ++ "e4") ∧
     (requestLease (fun j => Except.error ("e" ++ toString j))
        (DhcpClient.new "eth0")).result = Except.error "e4") ∧
    ((requestLease
        (fun j => if j < 2 then Except.error "x"
                  else Except.ok ⟨100, none, [], 3600⟩)
        (DhcpClient.new "eth0")).result = Except.ok ⟨100, none, [], 3600⟩) := by
  refine ⟨?_, ?_⟩
  · have := dhcp_request_lease_spec.1
      (fun j => Except.error ("e" ++ toString j)) (DhcpClient.new "eth0")
      (fun j => "e" ++ toString j) (by decide) (fun j _ => rfl)
    exact this
  · have := dhcp_request_lease_spec.2
      (fun j => if j < 2 then Except.error "x"
                else Except.ok ⟨100, none, [], 3600⟩)
      (DhcpClient.new "eth0") 2 ⟨100, none, [], 3600⟩ (by decide)
      (fun j hj => ⟨"x", by simp [hj]⟩) (by rfl)
    exact this.1

/-- **C7.** The claim fails on the code: stored metrics accumulate across
collector passes (`extend`, never cleared), so the exposition text renders
every snapshot ever taken, not only the most recent one.  With one service
whose uptime moves from 0 to 60 between two snapshots, parsing the
rendered text yields the stale triple `("service_uptime", service=net,
"0")`, which is not among the triples of the most recent snapshot — so the
parse does not recover "exactly the set most recently snapshotted". -/
theorem prometheus_renders_stale_snapshots :
    ("service_uptime", [("service", "net")], "0") ∈
      parseExposition (renderMetrics (metricsAfterSnapshots
        [[⟨"net", true, 0, 0, 0⟩], [⟨"net", true, 60, 0, 0⟩]])) ∧
    ("service_uptime", [("service", "net")], "0") ∉
      (snapshotMetrics [⟨"net", true, 60, 0, 0⟩]).map metricTriple := by
  decide

/-- **C7 (amended).** Parsing the text produced by
`get_prometheus_metrics` recovers exactly the sequence of
`(name, labels, value)` triples of **all currently stored** samples
(accumulated across every snapshot, not only the most recent), one line
per sample in the form `name{l1="v1",...} value`, each sample preceded by
its own `# TYPE name gauge` header line (one per sample, not grouped per
distinct metric name), with the `{...}` block omitted for label-free
samples — the round-trip is lossless for those three fields for every
list of well-formed stored metrics. -/
theorem prometheus_exposition_roundtrip (ms : List Metric)
    (hwf : ∀ m ∈ ms, wfMetric m) :
    parseExposition (renderMetrics ms) = ms.map metricTriple := by
  unfold parseExposition
  rw [renderMetrics_data]
  exact parse_render_lines ms hwf

/-- Witness for the amended C7 at a concrete input: two accumulated
snapshots of one service round-trip losslessly. -/
theorem prometheus_exposition_roundtrip_witness :
    parseExposition (renderMetrics (metricsAfterSnapshots
        [[⟨"net", true, 0, 0, 0⟩], [⟨"net", false, 60, 2, 1⟩]])) =
      (metricsAfterSnapshots
        [[⟨"net", true, 0, 0, 0⟩], [⟨"net", false, 60, 2, 1⟩]]).map metricTriple :=
  prometheus_exposition_roundtrip _ (by decide)

/-- Witness for C10 at a concrete input: a failing check at threshold 1
emits a Critical alert, and the theorem applies to it. -/
theorem check_alerts_never_error_severity_witness :
    (⟨AlertSeverity.critical, "a", "Health check failed: boom", false⟩ : Alert) ∈
      (checkAllServices ⟨true, 1, 1, true⟩ [("a", some "boom")]
        [initHealth "a"]).alerts ∧
    (⟨AlertSeverity.critical, "a", "Health check failed: boom", false⟩ :
        Alert).severity ≠ AlertSeverity.error :=
  ⟨by decide,
   (check_alerts_never_error_severity ⟨true, 1, 1, true⟩ [("a", some "boom")]
      [initHealth "a"] _ (by decide)).1⟩

end USBNode
